import Mathlib

/-!
Verification of the Arduino Stepper library (arduino-libraries/Stepper).

The repository contains two closely related C++ variants of the driver:
  * `src/unnamed/part_003` - the interruptible fork (2/3/4/5-wire, an
    `INTERRUPTED` flag settable from an ISR); modelled below in
    namespace `InterruptFork`.
  * `src/src/Stepper.cpp`  - the microstepping fork (2/4/5-wire plus
    2-or-4-wire + PWM microstepping, `off()`); modelled below in
    namespace `MicroFork`.

Machine integers: `int` and `long` members are modelled as `Int`;
`unsigned long` members (`step_delay`, `micro_step_delay`,
`last_step_time` and the `micros()` clock) are modelled as `Nat`
reduced modulo 2^32 where the C arithmetic wraps.  Division by zero in
C is a fault, so `setSpeed` returns an `Option`.  Pin output is
modelled as an explicit list of emitted actions.
-/

namespace StepperLib

/-- A side effect on the pins: `digitalWrite(pin, HIGH/LOW)` with
`true` = HIGH, `analogWrite(pin, duty)`, or `analogWriteFreq(freq)`. -/
inductive Action where
  | digitalWrite (pin : Int) (level : Bool)
  | analogWrite (pin : Int) (value : Int)
  | analogWriteFreq (freq : Int)
deriving DecidableEq, Repr

/-- The pin an action drives, if any (`analogWriteFreq` has none). -/
def Action.pinOf : Action → Option Int
  | .digitalWrite p _ => some p
  | .analogWrite p _ => some p
  | .analogWriteFreq _ => none

/-- The mutable members of the C++ `Stepper` class (union of the two
forks: the interruptible fork has `INTERRUPTED`, the microstepping fork
has the `micro_*` and PWM members). -/
structure Stepper where
  direction : Int
  step_delay : Nat
  micro_step_delay : Nat
  number_of_steps : Int
  number_of_micro_steps : Int
  micro_stepping : Bool
  pin_count : Int
  step_number : Int
  micro_step_number : Int
  last_step_time : Nat
  INTERRUPTED : Bool
  motor_pin_1 : Int
  motor_pin_2 : Int
  motor_pin_3 : Int
  motor_pin_4 : Int
  motor_pin_5 : Int
  motor_pwm_pin_1 : Int
  motor_pwm_pin_2 : Int
deriving DecidableEq, Repr

/-- Conversion of a C `int`/`long` value to `unsigned long` (32-bit). -/
def toU32 (x : Int) : Nat := (x % 4294967296).toNat

/-- 32-bit unsigned subtraction `now - last` as in the C expression
`now - this->last_step_time` on `unsigned long`. -/
def usub32 (now last : Nat) : Nat :=
  (now % 4294967296 + 4294967296 - last % 4294967296) % 4294967296

/-- The wrap-forward step of both forks:
`step_number++; if (step_number == number_of_steps) step_number = 0;`. -/
def fwdWrap (n x : Int) : Int := if x + 1 = n then 0 else x + 1

/-- The wrap-backward step of both forks:
`if (step_number == 0) step_number = number_of_steps; step_number--;`. -/
def bwdWrap (n x : Int) : Int := (if x = 0 then n else x) - 1

/-- One whole-step advance of `step_number`, direction-dependent, as in
the body of the timing-gated branch of `Stepper::step`. -/
def advanceOne (s : Stepper) : Stepper :=
  if s.direction = 1 then { s with step_number := fwdWrap s.number_of_steps s.step_number }
  else { s with step_number := bwdWrap s.number_of_steps s.step_number }

/-- One microstep advance of `(step_number, micro_step_number)` as in
the microstepping branch of `Stepper::step` (src/src/Stepper.cpp):
the micro index wraps in `[0, number_of_micro_steps)` and carries a
whole step into `step_number`. -/
def microAdvanceOne (s : Stepper) : Stepper :=
  if s.direction = 1 then
    let m := s.micro_step_number + 1
    if m = s.number_of_micro_steps then
      { s with step_number := fwdWrap s.number_of_steps s.step_number, micro_step_number := 0 }
    else { s with micro_step_number := m }
  else
    if s.micro_step_number = 0 then
      { s with step_number := bwdWrap s.number_of_steps s.step_number,
               micro_step_number := s.number_of_micro_steps - 1 }
    else { s with micro_step_number := s.micro_step_number - 1 }

/-- The entry prologue of `Stepper::step(int steps_to_move)`, identical
in both forks: `steps_left = abs(steps_to_move)` and the two sign
tests that set `direction`. -/
def stepRequest (s : Stepper) (steps_to_move : Int) : Nat × Stepper :=
  let steps_left := steps_to_move.natAbs
  let s := if 0 < steps_to_move then { s with direction := 1 } else s
  let s := if steps_to_move < 0 then { s with direction := 0 } else s
  (steps_left, s)

end StepperLib

namespace StepperLib

/-- One observed iteration of the blocking loop of the interruptible
fork: the value `micros()` returns, and whether an asynchronous
`interrupt()` call was delivered just before the loop condition is
checked this iteration. -/
structure Iter where
  now : Nat
  intr : Bool
deriving DecidableEq, Repr

/-- Result of running the blocking loop over a finite observation
window: the final state, the number of steps actually executed, and
the arguments passed to `stepMotor`, in order. -/
structure RunResult where
  state : Stepper
  executed : Nat
  rows : List Int
deriving DecidableEq, Repr

namespace InterruptFork

/-- `Stepper::setSpeed` of the interruptible fork:
`step_delay = 60L * 1000L * 1000L / number_of_steps / whatSpeed;`.
C integer division truncates toward zero (`Int.tdiv`) and faults on a
zero divisor, hence the `Option`; the result is stored into the
`unsigned long` member `step_delay`. -/
def setSpeed (s : Stepper) (whatSpeed : Int) : Option Stepper :=
  if s.number_of_steps = 0 ∨ whatSpeed = 0 then none
  else some { s with step_delay := toU32 (Int.tdiv (Int.tdiv 60000000 s.number_of_steps) whatSpeed) }

/-- The argument of the `stepMotor` call in the loop of the
interruptible fork: `switch (pin_count)` selecting
`step_number % 10` (5-wire), `% 6` (3-wire) or `% 4` (default). -/
def rowIndex (s : Stepper) : Int :=
  if s.pin_count = 5 then Int.tmod s.step_number 10
  else if s.pin_count = 3 then Int.tmod s.step_number 6
  else Int.tmod s.step_number 4

/-- The blocking loop of `Stepper::step` (interruptible fork), driven
by a finite oracle of iterations.  The condition is
`steps_left > 0 && !INTERRUPTED` (short-circuit: the flag is not read
when `steps_left == 0`); a delivered `interrupt()` is modelled as
setting the flag just before the condition is checked.  An executed
step updates `last_step_time`, advances `step_number` and calls
`stepMotor(rowIndex)`. -/
def runLoop : Stepper → Nat → List Iter → RunResult
  | s, _, [] => ⟨s, 0, []⟩
  | s, 0, _ :: _ => ⟨s, 0, []⟩
  | s, sl + 1, it :: rest =>
    let s' := if it.intr then { s with INTERRUPTED := true } else s
    if s'.INTERRUPTED then ⟨s', 0, []⟩
    else if s'.step_delay ≤ usub32 it.now s'.last_step_time then
      let s1 := advanceOne { s' with last_step_time := it.now }
      let r := runLoop s1 sl rest
      ⟨r.state, r.executed + 1, rowIndex s1 :: r.rows⟩
    else
      runLoop s' (sl + 1) rest

/-- `Stepper::step(int steps_to_move)` of the interruptible fork. -/
def step (s : Stepper) (steps_to_move : Int) (iters : List Iter) : RunResult :=
  let p := stepRequest s steps_to_move
  runLoop p.2 p.1 iters

/-- `Stepper::interrupt()`: sets the `INTERRUPTED` flag. -/
def interrupt (s : Stepper) : Stepper := { s with INTERRUPTED := true }

/-- `Stepper::clear_interrupt()`: clears the `INTERRUPTED` flag. -/
def clear_interrupt (s : Stepper) : Stepper := { s with INTERRUPTED := false }

/-- `Stepper::stepMotor(int thisStep)` of the interruptible fork: the
four sequential `if (pin_count == k)` blocks, each a `switch` over the
row index emitting one `digitalWrite` per control pin (the commented
truth tables of the source). -/
def stepMotor (s : Stepper) (thisStep : Int) : List Action :=
  (if s.pin_count = 2 then
    if thisStep = 0 then [.digitalWrite s.motor_pin_1 false, .digitalWrite s.motor_pin_2 true]
    else if thisStep = 1 then [.digitalWrite s.motor_pin_1 true, .digitalWrite s.motor_pin_2 true]
    else if thisStep = 2 then [.digitalWrite s.motor_pin_1 true, .digitalWrite s.motor_pin_2 false]
    else if thisStep = 3 then [.digitalWrite s.motor_pin_1 false, .digitalWrite s.motor_pin_2 false]
    else []
  else []) ++
  (if s.pin_count = 3 then
    if thisStep = 0 then [.digitalWrite s.motor_pin_1 false, .digitalWrite s.motor_pin_2 false, .digitalWrite s.motor_pin_3 true]
    else if thisStep = 1 then [.digitalWrite s.motor_pin_1 true, .digitalWrite s.motor_pin_2 false, .digitalWrite s.motor_pin_3 true]
    else if thisStep = 2 then [.digitalWrite s.motor_pin_1 true, .digitalWrite s.motor_pin_2 false, .digitalWrite s.motor_pin_3 false]
    else if thisStep = 3 then [.digitalWrite s.motor_pin_1 true, .digitalWrite s.motor_pin_2 true, .digitalWrite s.motor_pin_3 false]
    else if thisStep = 4 then [.digitalWrite s.motor_pin_1 false, .digitalWrite s.motor_pin_2 true, .digitalWrite s.motor_pin_3 false]
    else if thisStep = 5 then [.digitalWrite s.motor_pin_1 false, .digitalWrite s.motor_pin_2 true, .digitalWrite s.motor_pin_3 true]
    else []
  else []) ++
  (if s.pin_count = 4 then
    if thisStep = 0 then [.digitalWrite s.motor_pin_1 true, .digitalWrite s.motor_pin_2 false, .digitalWrite s.motor_pin_3 true, .digitalWrite s.motor_pin_4 false]
    else if thisStep = 1 then [.digitalWrite s.motor_pin_1 false, .digitalWrite s.motor_pin_2 true, .digitalWrite s.motor_pin_3 true, .digitalWrite s.motor_pin_4 false]
    else if thisStep = 2 then [.digitalWrite s.motor_pin_1 false, .digitalWrite s.motor_pin_2 true, .digitalWrite s.motor_pin_3 false, .digitalWrite s.motor_pin_4 true]
    else if thisStep = 3 then [.digitalWrite s.motor_pin_1 true, .digitalWrite s.motor_pin_2 false, .digitalWrite s.motor_pin_3 false, .digitalWrite s.motor_pin_4 true]
    else []
  else []) ++
  (if s.pin_count = 5 then
    if thisStep = 0 then [.digitalWrite s.motor_pin_1 false, .digitalWrite s.motor_pin_2 true, .digitalWrite s.motor_pin_3 true, .digitalWrite s.motor_pin_4 false, .digitalWrite s.motor_pin_5 true]
    else if thisStep = 1 then [.digitalWrite s.motor_pin_1 false, .digitalWrite s.motor_pin_2 true, .digitalWrite s.motor_pin_3 false, .digitalWrite s.motor_pin_4 false, .digitalWrite s.motor_pin_5 true]
    else if thisStep = 2 then [.digitalWrite s.motor_pin_1 false, .digitalWrite s.motor_pin_2 true, .digitalWrite s.motor_pin_3 false, .digitalWrite s.motor_pin_4 true, .digitalWrite s.motor_pin_5 true]
    else if thisStep = 3 then [.digitalWrite s.motor_pin_1 false, .digitalWrite s.motor_pin_2 true, .digitalWrite s.motor_pin_3 false, .digitalWrite s.motor_pin_4 true, .digitalWrite s.motor_pin_5 false]
    else if thisStep = 4 then [.digitalWrite s.motor_pin_1 true, .digitalWrite s.motor_pin_2 true, .digitalWrite s.motor_pin_3 false, .digitalWrite s.motor_pin_4 true, .digitalWrite s.motor_pin_5 false]
    else if thisStep = 5 then [.digitalWrite s.motor_pin_1 true, .digitalWrite s.motor_pin_2 false, .digitalWrite s.motor_pin_3 false, .digitalWrite s.motor_pin_4 true, .digitalWrite s.motor_pin_5 false]
    else if thisStep = 6 then [.digitalWrite s.motor_pin_1 true, .digitalWrite s.motor_pin_2 false, .digitalWrite s.motor_pin_3 true, .digitalWrite s.motor_pin_4 true, .digitalWrite s.motor_pin_5 false]
    else if thisStep = 7 then [.digitalWrite s.motor_pin_1 true, .digitalWrite s.motor_pin_2 false, .digitalWrite s.motor_pin_3 true, .digitalWrite s.motor_pin_4 false, .digitalWrite s.motor_pin_5 false]
    else if thisStep = 8 then [.digitalWrite s.motor_pin_1 true, .digitalWrite s.motor_pin_2 false, .digitalWrite s.motor_pin_3 true, .digitalWrite s.motor_pin_4 false, .digitalWrite s.motor_pin_5 true]
    else if thisStep = 9 then [.digitalWrite s.motor_pin_1 false, .digitalWrite s.motor_pin_2 false, .digitalWrite s.motor_pin_3 true, .digitalWrite s.motor_pin_4 false, .digitalWrite s.motor_pin_5 true]
    else []
  else [])

end InterruptFork

/-- Result of running the microstepping loop over a finite observation
window: final state, executed count, and the argument pairs passed to
`microStepMotor`, in order. -/
structure MicroRunResult where
  state : Stepper
  executed : Nat
  calls : List (Int × Int)
deriving DecidableEq, Repr

/-- Combined result of `Stepper::step` in the microstepping fork:
whole-step mode fills `rows` (arguments of `stepMotor`), microstepping
mode fills `microCalls` (arguments of `microStepMotor`). -/
structure StepResult where
  state : Stepper
  executed : Nat
  rows : List Int
  microCalls : List (Int × Int)
deriving DecidableEq, Repr

namespace MicroFork

/-- `Stepper::setSpeed` of the microstepping fork: computes
`step_delay` as in the other fork, then, if microstepping,
`micro_step_delay = step_delay / number_of_micro_steps` (an
`unsigned long` division, faulting on a zero divisor) and an
`analogWriteFreq(whatSpeed * 100)` call; otherwise
`micro_step_delay = 0`. -/
def setSpeed (s : Stepper) (whatSpeed : Int) : Option (Stepper × List Action) :=
  if s.number_of_steps = 0 ∨ whatSpeed = 0 then none
  else
    let sd := toU32 (Int.tdiv (Int.tdiv 60000000 s.number_of_steps) whatSpeed)
    if s.micro_stepping then
      if toU32 s.number_of_micro_steps = 0 then none
      else some ({ s with step_delay := sd, micro_step_delay := sd / toU32 s.number_of_micro_steps },
                 [.analogWriteFreq (whatSpeed * 100)])
    else some ({ s with step_delay := sd, micro_step_delay := 0 }, [])

/-- The argument of the `stepMotor` call in the whole-step loop of the
microstepping fork: `step_number % 10` when `pin_count == 5`, else
`step_number % 4`. -/
def rowIndex (s : Stepper) : Int :=
  if s.pin_count = 5 then Int.tmod s.step_number 10 else Int.tmod s.step_number 4

/-- The whole-step blocking loop of `Stepper::step`
(src/src/Stepper.cpp, non-microstepping branch), driven by a finite
oracle of `micros()` readings. -/
def runLoop : Stepper → Nat → List Nat → RunResult
  | s, _, [] => ⟨s, 0, []⟩
  | s, 0, _ :: _ => ⟨s, 0, []⟩
  | s, sl + 1, now :: rest =>
    if s.step_delay ≤ usub32 now s.last_step_time then
      let s1 := advanceOne { s with last_step_time := now }
      let r := runLoop s1 sl rest
      ⟨r.state, r.executed + 1, rowIndex s1 :: r.rows⟩
    else
      runLoop s (sl + 1) rest

/-- The microstepping blocking loop of `Stepper::step`
(src/src/Stepper.cpp, microstepping branch): gated on
`micro_step_delay`, advances the micro index with whole-step carry and
calls `microStepMotor(step_number % 4, micro_step_number)` when
`pin_count == 2 || pin_count == 4`. -/
def runMicroLoop : Stepper → Nat → List Nat → MicroRunResult
  | s, _, [] => ⟨s, 0, []⟩
  | s, 0, _ :: _ => ⟨s, 0, []⟩
  | s, sl + 1, now :: rest =>
    if s.micro_step_delay ≤ usub32 now s.last_step_time then
      let s1 := microAdvanceOne { s with last_step_time := now }
      let r := runMicroLoop s1 sl rest
      ⟨r.state, r.executed + 1,
        (if s1.pin_count = 2 ∨ s1.pin_count = 4 then
          [(Int.tmod s1.step_number 4, s1.micro_step_number)] else []) ++ r.calls⟩
    else
      runMicroLoop s (sl + 1) rest

/-- `Stepper::step(int steps_to_move)` of the microstepping fork: the
sign/magnitude prologue, then the whole-step loop if
`!micro_stepping`, else the microstepping loop. -/
def step (s : Stepper) (steps_to_move : Int) (nows : List Nat) : StepResult :=
  let p := stepRequest s steps_to_move
  if p.2.micro_stepping = false then
    let r := runLoop p.2 p.1 nows
    ⟨r.state, r.executed, r.rows, []⟩
  else
    let r := runMicroLoop p.2 p.1 nows
    ⟨r.state, r.executed, [], r.calls⟩

end MicroFork

/-- The 1/2-microstepping sine/cosine table `Stepper::microstepping_1_2`
(4 quadrants x 2 micro positions x 2 coil intensities). -/
def microstepping_1_2 : List (List (Int × Int)) :=
  [[(0, 100), (71, 71)],
   [(100, 0), (71, -71)],
   [(0, -100), (-71, -71)],
   [(-100, 0), (-71, 71)]]

/-- The 1/4-microstepping table `Stepper::microstepping_1_4`. -/
def microstepping_1_4 : List (List (Int × Int)) :=
  [[(0, 100), (38, 92), (71, 71), (92, 38)],
   [(100, 0), (92, -38), (71, -71), (38, -92)],
   [(0, -100), (-38, -92), (-71, -71), (-92, -38)],
   [(-100, 0), (-92, 38), (-71, 71), (-38, 92)]]

/-- The 1/8-microstepping table `Stepper::microstepping_1_8`. -/
def microstepping_1_8 : List (List (Int × Int)) :=
  [[(0, 100), (20, 98), (38, 92), (56, 83), (71, 71), (83, 56), (92, 38), (98, 20)],
   [(100, 0), (98, -20), (92, -38), (83, -56), (71, -71), (56, -83), (38, -92), (20, -98)],
   [(0, -100), (-20, -98), (-38, -92), (-56, -83), (-71, -71), (-83, -56), (-92, -38), (-98, -20)],
   [(-100, 0), (-98, 20), (-92, 38), (-83, 56), (-71, 71), (-56, 83), (-38, 92), (-20, 98)]]

/-- C array indexing `table[i][j]`: out-of-range access is undefined
behaviour, hence `none`. -/
def tableLookup (t : List (List (Int × Int))) (i j : Int) : Option (Int × Int) :=
  if i < 0 ∨ j < 0 then none
  else (t.get? i.toNat).bind fun row => row.get? j.toNat

/-- The platform constant `PWMRANGE` from the Arduino core headers
(1023 on the ESP8266 core this fork targets). -/
def PWMRANGE : Int := 1023

namespace MicroFork

/-- The local `coil1value`/`coil2value` of `Stepper::microStepMotor`:
selected from the table matching `number_of_micro_steps` (2, 4 or 8);
any other value leaves the locals uninitialized (undefined behaviour),
hence `none`. -/
def microCoils (s : Stepper) (this_step this_micro : Int) : Option (Int × Int) :=
  if s.number_of_micro_steps = 2 then tableLookup microstepping_1_2 this_step this_micro
  else if s.number_of_micro_steps = 4 then tableLookup microstepping_1_4 this_step this_micro
  else if s.number_of_micro_steps = 8 then tableLookup microstepping_1_8 this_step this_micro
  else none

/-- `Stepper::microStepMotor(int this_step, int this_micro_step)`:
PWM duty `abs(coil) * PWMRANGE / 100` on the two PWM pins, then the
sign of each coil on the direction pin (2-wire) or H-bridge pin pair
(4-wire). -/
def microStepMotor (s : Stepper) (this_step this_micro_step : Int) : Option (List Action) :=
  (microCoils s this_step this_micro_step).map fun c =>
    [Action.analogWrite s.motor_pwm_pin_1 (Int.tdiv (|c.1| * PWMRANGE) 100),
     Action.analogWrite s.motor_pwm_pin_2 (Int.tdiv (|c.2| * PWMRANGE) 100)] ++
    (if s.pin_count = 2 then
      [Action.digitalWrite s.motor_pin_1 (decide (0 < c.1)),
       Action.digitalWrite s.motor_pin_2 (decide (0 < c.2))]
    else if s.pin_count = 4 then
      (if 0 < c.1 then [Action.digitalWrite s.motor_pin_1 true, Action.digitalWrite s.motor_pin_2 false]
       else [Action.digitalWrite s.motor_pin_1 false, Action.digitalWrite s.motor_pin_2 true]) ++
      (if 0 < c.2 then [Action.digitalWrite s.motor_pin_3 true, Action.digitalWrite s.motor_pin_4 false]
       else [Action.digitalWrite s.motor_pin_3 false, Action.digitalWrite s.motor_pin_4 true])
    else [])

/-- `Stepper::stepMotor(int thisStep)` of the microstepping fork:
`pin_count` 2, 4 and 5 blocks (this fork has no 3-wire topology); the
rows agree with the interruptible fork. -/
def stepMotor (s : Stepper) (thisStep : Int) : List Action :=
  (if s.pin_count = 2 then
    if thisStep = 0 then [.digitalWrite s.motor_pin_1 false, .digitalWrite s.motor_pin_2 true]
    else if thisStep = 1 then [.digitalWrite s.motor_pin_1 true, .digitalWrite s.motor_pin_2 true]
    else if thisStep = 2 then [.digitalWrite s.motor_pin_1 true, .digitalWrite s.motor_pin_2 false]
    else if thisStep = 3 then [.digitalWrite s.motor_pin_1 false, .digitalWrite s.motor_pin_2 false]
    else []
  else []) ++
  (if s.pin_count = 4 then
    if thisStep = 0 then [.digitalWrite s.motor_pin_1 true, .digitalWrite s.motor_pin_2 false, .digitalWrite s.motor_pin_3 true, .digitalWrite s.motor_pin_4 false]
    else if thisStep = 1 then [.digitalWrite s.motor_pin_1 false, .digitalWrite s.motor_pin_2 true, .digitalWrite s.motor_pin_3 true, .digitalWrite s.motor_pin_4 false]
    else if thisStep = 2 then [.digitalWrite s.motor_pin_1 false, .digitalWrite s.motor_pin_2 true, .digitalWrite s.motor_pin_3 false, .digitalWrite s.motor_pin_4 true]
    else if thisStep = 3 then [.digitalWrite s.motor_pin_1 true, .digitalWrite s.motor_pin_2 false, .digitalWrite s.motor_pin_3 false, .digitalWrite s.motor_pin_4 true]
    else []
  else []) ++
  (if s.pin_count = 5 then
    if thisStep = 0 then [.digitalWrite s.motor_pin_1 false, .digitalWrite s.motor_pin_2 true, .digitalWrite s.motor_pin_3 true, .digitalWrite s.motor_pin_4 false, .digitalWrite s.motor_pin_5 true]
    else if thisStep = 1 then [.digitalWrite s.motor_pin_1 false, .digitalWrite s.motor_pin_2 true, .digitalWrite s.motor_pin_3 false, .digitalWrite s.motor_pin_4 false, .digitalWrite s.motor_pin_5 true]
    else if thisStep = 2 then [.digitalWrite s.motor_pin_1 false, .digitalWrite s.motor_pin_2 true, .digitalWrite s.motor_pin_3 false, .digitalWrite s.motor_pin_4 true, .digitalWrite s.motor_pin_5 true]
    else if thisStep = 3 then [.digitalWrite s.motor_pin_1 false, .digitalWrite s.motor_pin_2 true, .digitalWrite s.motor_pin_3 false, .digitalWrite s.motor_pin_4 true, .digitalWrite s.motor_pin_5 false]
    else if thisStep = 4 then [.digitalWrite s.motor_pin_1 true, .digitalWrite s.motor_pin_2 true, .digitalWrite s.motor_pin_3 false, .digitalWrite s.motor_pin_4 true, .digitalWrite s.motor_pin_5 false]
    else if thisStep = 5 then [.digitalWrite s.motor_pin_1 true, .digitalWrite s.motor_pin_2 false, .digitalWrite s.motor_pin_3 false, .digitalWrite s.motor_pin_4 true, .digitalWrite s.motor_pin_5 false]
    else if thisStep = 6 then [.digitalWrite s.motor_pin_1 true, .digitalWrite s.motor_pin_2 false, .digitalWrite s.motor_pin_3 true, .digitalWrite s.motor_pin_4 true, .digitalWrite s.motor_pin_5 false]
    else if thisStep = 7 then [.digitalWrite s.motor_pin_1 true, .digitalWrite s.motor_pin_2 false, .digitalWrite s.motor_pin_3 true, .digitalWrite s.motor_pin_4 false, .digitalWrite s.motor_pin_5 false]
    else if thisStep = 8 then [.digitalWrite s.motor_pin_1 true, .digitalWrite s.motor_pin_2 false, .digitalWrite s.motor_pin_3 true, .digitalWrite s.motor_pin_4 false, .digitalWrite s.motor_pin_5 true]
    else if thisStep = 9 then [.digitalWrite s.motor_pin_1 false, .digitalWrite s.motor_pin_2 false, .digitalWrite s.motor_pin_3 true, .digitalWrite s.motor_pin_4 false, .digitalWrite s.motor_pin_5 true]
    else []
  else [])

/-- `Stepper::off()` of the microstepping fork: PWM duty 0 when
microstepping (any topology); no pin writes at all for the bare 2-wire
topology (the source comments document this as impossible without the
PWM/enable pins); all control pins LOW for 4-wire and 5-wire.  The
method assigns no data member, so the state is returned unchanged. -/
def off (s : Stepper) : Stepper × List Action :=
  if s.micro_stepping then
    (s, [.analogWrite s.motor_pwm_pin_1 0, .analogWrite s.motor_pwm_pin_2 0])
  else if s.pin_count = 2 then (s, [])
  else if s.pin_count = 4 then
    (s, [.digitalWrite s.motor_pin_1 false, .digitalWrite s.motor_pin_2 false,
         .digitalWrite s.motor_pin_3 false, .digitalWrite s.motor_pin_4 false])
  else if s.pin_count = 5 then
    (s, [.digitalWrite s.motor_pin_1 false, .digitalWrite s.motor_pin_2 false,
         .digitalWrite s.motor_pin_3 false, .digitalWrite s.motor_pin_4 false,
         .digitalWrite s.motor_pin_5 false])
  else (s, [])

/-- The four-wire + PWM constructor of the microstepping fork
(src/src/Stepper.cpp lines 214-254), transcribed in assignment order:
after storing all four motor pins and the PWM pins it re-assigns
`motor_pin_3 = 0`, `motor_pin_4 = 0`, `motor_pin_5 = 0` and
`pin_count = 2`.  Members the constructor never assigns
(`step_delay`, `micro_step_delay`, `micro_step_number`) are
indeterminate in C++ and taken as parameters; `INTERRUPTED` belongs to
the other fork and is fixed `false` here. -/
def mkFourWirePWM (number_of_steps : Int) (micro_stepping : Bool)
    (number_of_micro_steps : Int)
    (motor_pin_1 motor_pin_2 motor_pin_3 motor_pin_4 : Int)
    (motor_pwm_pin_1 motor_pwm_pin_2 : Int)
    (undef_step_delay undef_micro_step_delay : Nat)
    (undef_micro_step_number : Int) : Stepper :=
  let s : Stepper :=
    { step_number := 0
      direction := 0
      last_step_time := 0
      number_of_steps := number_of_steps
      motor_pin_1 := motor_pin_1
      motor_pin_2 := motor_pin_2
      motor_pin_3 := motor_pin_3
      motor_pin_4 := motor_pin_4
      motor_pwm_pin_1 := motor_pwm_pin_1
      motor_pwm_pin_2 := motor_pwm_pin_2
      micro_stepping := micro_stepping
      number_of_micro_steps := number_of_micro_steps
      -- the next two receive their final values in the re-assignments below
      motor_pin_5 := 0
      pin_count := 0
      -- indeterminate members, never assigned by this constructor
      step_delay := undef_step_delay
      micro_step_delay := undef_micro_step_delay
      micro_step_number := undef_micro_step_number
      INTERRUPTED := false }
  let s := { s with motor_pin_3 := 0 }
  let s := { s with motor_pin_4 := 0 }
  let s := { s with motor_pin_5 := 0 }
  { s with pin_count := 2 }

end MicroFork

/-! Auxiliary functions describing the net effect of the loops, and
arithmetic facts about the wrap functions. -/

/-- The function one executed whole step applies to `step_number`,
determined by `direction` (the loops test `direction == 1`). -/
def stepFun (dir n : Int) : Int → Int := if dir = 1 then fwdWrap n else bwdWrap n

/-- The row indices emitted by `k` executed steps starting at `x`:
each step first advances by `f`, then reports `g` of the new value. -/
def rowTrace (f g : Int → Int) : Nat → Int → List Int
  | 0, _ => []
  | k + 1, x => g (f x) :: rowTrace f g k (f x)

/-- The row-index function of the interruptible fork as a function of
`pin_count`. -/
def rowFunI (pc : Int) (x : Int) : Int :=
  if pc = 5 then Int.tmod x 10 else if pc = 3 then Int.tmod x 6 else Int.tmod x 4

/-- The row-index function of the microstepping fork (whole-step mode)
as a function of `pin_count`. -/
def rowFunM (pc : Int) (x : Int) : Int :=
  if pc = 5 then Int.tmod x 10 else Int.tmod x 4

/-- The pair function one executed forward microstep applies to
`(step_number, micro_step_number)`. -/
def mFwd (n nms : Int) (p : Int × Int) : Int × Int :=
  if p.2 + 1 = nms then (fwdWrap n p.1, 0) else (p.1, p.2 + 1)

/-- The pair function one executed reverse microstep applies to
`(step_number, micro_step_number)`. -/
def mBwd (n nms : Int) (p : Int × Int) : Int × Int :=
  if p.2 = 0 then (bwdWrap n p.1, nms - 1) else (p.1, p.2 - 1)

/-- The microstep pair function selected by `direction`. -/
def mStepFun (dir n nms : Int) : Int × Int → Int × Int :=
  if dir = 1 then mFwd n nms else mBwd n nms

/-- Joint range invariant for the microstepping position pair. -/
def MValid (n nms : Int) (p : Int × Int) : Prop :=
  0 ≤ p.1 ∧ p.1 < n ∧ 0 ≤ p.2 ∧ p.2 < nms

/-- A concrete 4-wire configuration (steps-per-revolution 2048, pins
8, 9, 10, 11, speed never set so `step_delay = 0`) used to instantiate
the theorems below on explicit inputs. -/
def sample : Stepper :=
  { direction := 0, step_delay := 0, micro_step_delay := 0, number_of_steps := 2048,
    number_of_micro_steps := 0, micro_stepping := false, pin_count := 4,
    step_number := 0, micro_step_number := 0, last_step_time := 0, INTERRUPTED := false,
    motor_pin_1 := 8, motor_pin_2 := 9, motor_pin_3 := 10, motor_pin_4 := 11,
    motor_pin_5 := 0, motor_pwm_pin_1 := 0, motor_pwm_pin_2 := 0 }

/-- A concrete 2-wire + PWM half-microstepping configuration (4 whole
steps, 2 microsteps per step) for instantiating the microstepping
theorems. -/
def sampleMicro : Stepper :=
  { direction := 0, step_delay := 2, micro_step_delay := 1, number_of_steps := 4,
    number_of_micro_steps := 2, micro_stepping := true, pin_count := 2,
    step_number := 0, micro_step_number := 0, last_step_time := 0, INTERRUPTED := false,
    motor_pin_1 := 8, motor_pin_2 := 9, motor_pin_3 := 0, motor_pin_4 := 0,
    motor_pin_5 := 0, motor_pwm_pin_1 := 5, motor_pwm_pin_2 := 6 }

/-- A concrete 5-wire configuration (steps-per-revolution 200) for the
five-phase sequence theorem. -/
def sampleFive : Stepper :=
  { direction := 0, step_delay := 100, micro_step_delay := 0, number_of_steps := 200,
    number_of_micro_steps := 0, micro_stepping := false, pin_count := 5,
    step_number := 0, micro_step_number := 0, last_step_time := 0, INTERRUPTED := false,
    motor_pin_1 := 1, motor_pin_2 := 2, motor_pin_3 := 3, motor_pin_4 := 4,
    motor_pin_5 := 7, motor_pwm_pin_1 := 0, motor_pwm_pin_2 := 0 }

/-- Modelled from the spec: the documented five-phase truth table,
rows 0..9 = 01101, 01001, 01011, 01010, 11010, 10010, 10110, 10100,
10101, 00101 (per-pin HIGH/LOW levels for the five control pins). -/
def fivePhaseTruthTable (r : Int) : Bool × Bool × Bool × Bool × Bool :=
  if r = 0 then (false, true, true, false, true)
  else if r = 1 then (false, true, false, false, true)
  else if r = 2 then (false, true, false, true, true)
  else if r = 3 then (false, true, false, true, false)
  else if r = 4 then (true, true, false, true, false)
  else if r = 5 then (true, false, false, true, false)
  else if r = 6 then (true, false, true, true, false)
  else if r = 7 then (true, false, true, false, false)
  else if r = 8 then (true, false, true, false, true)
  else (false, false, true, false, true)

/-- One emitted 5-wire row: a `digitalWrite` of the given level on
each of the five control pins in order. -/
def fiveWireRow (s : Stepper) (b : Bool × Bool × Bool × Bool × Bool) : List Action :=
  [.digitalWrite s.motor_pin_1 b.1, .digitalWrite s.motor_pin_2 b.2.1,
   .digitalWrite s.motor_pin_3 b.2.2.1, .digitalWrite s.motor_pin_4 b.2.2.2.1,
   .digitalWrite s.motor_pin_5 b.2.2.2.2]

theorem fwdWrap_mem {n x : Int} (hn : 0 < n) (h0 : 0 ≤ x) (h1 : x < n) :
    0 ≤ fwdWrap n x ∧ fwdWrap n x < n := by
  unfold fwdWrap; split <;> omega

theorem bwdWrap_mem {n x : Int} (hn : 0 < n) (h0 : 0 ≤ x) (h1 : x < n) :
    0 ≤ bwdWrap n x ∧ bwdWrap n x < n := by
  unfold bwdWrap; split <;> omega

theorem bwdWrap_fwdWrap {n x : Int} (hn : 0 < n) (h0 : 0 ≤ x) (h1 : x < n) :
    bwdWrap n (fwdWrap n x) = x := by
  unfold fwdWrap bwdWrap; split_ifs <;> omega

theorem mFwd_mem {n nms : Int} (hn : 0 < n) (hm : 0 < nms) {p : Int × Int}
    (h : MValid n nms p) : MValid n nms (mFwd n nms p) := by
  obtain ⟨h1, h2, h3, h4⟩ := h
  unfold mFwd MValid fwdWrap
  split_ifs <;> simp_all <;> omega

theorem mBwd_mem {n nms : Int} (hn : 0 < n) (hm : 0 < nms) {p : Int × Int}
    (h : MValid n nms p) : MValid n nms (mBwd n nms p) := by
  obtain ⟨h1, h2, h3, h4⟩ := h
  unfold mBwd MValid bwdWrap
  split_ifs <;> simp_all <;> omega

theorem mBwd_mFwd {n nms : Int} (hn : 0 < n) (hm : 0 < nms) {p : Int × Int}
    (h : MValid n nms p) : mBwd n nms (mFwd n nms p) = p := by
  obtain ⟨h1, h2, h3, h4⟩ := h
  unfold mFwd mBwd fwdWrap bwdWrap
  split_ifs <;> simp_all [Prod.ext_iff] <;> omega

theorem iterate_pres {α : Type} (P : α → Prop) (f : α → α)
    (hf : ∀ x, P x → P (f x)) :
    ∀ (k : Nat) (x : α), P x → P (f^[k] x) := by
  intro k
  induction k with
  | zero => intro x hx; simpa using hx
  | succ k ih =>
    intro x hx
    rw [Function.iterate_succ_apply]
    exact ih _ (hf _ hx)

theorem iterate_back {α : Type} (P : α → Prop) (f g : α → α)
    (hf : ∀ x, P x → P (f x)) (hgf : ∀ x, P x → g (f x) = x) :
    ∀ (k : Nat) (x : α), P x → g^[k] (f^[k] x) = x := by
  intro k
  induction k with
  | zero => intro x _; simp
  | succ k ih =>
    intro x hx
    rw [Function.iterate_succ_apply f, Function.iterate_succ_apply' g]
    rw [ih (f x) (hf x hx), hgf x hx]

theorem advanceOne_step_number (s : Stepper) :
    (advanceOne s).step_number = stepFun s.direction s.number_of_steps s.step_number := by
  unfold advanceOne stepFun
  split <;> simp_all

theorem advanceOne_rest (s : Stepper) :
    (advanceOne s).direction = s.direction ∧
    (advanceOne s).number_of_steps = s.number_of_steps ∧
    (advanceOne s).pin_count = s.pin_count ∧
    (advanceOne s).micro_step_number = s.micro_step_number ∧
    (advanceOne s).micro_stepping = s.micro_stepping ∧
    (advanceOne s).number_of_micro_steps = s.number_of_micro_steps ∧
    (advanceOne s).step_delay = s.step_delay ∧
    (advanceOne s).micro_step_delay = s.micro_step_delay := by
  unfold advanceOne; split <;> simp

theorem microAdvanceOne_pair (s : Stepper) :
    ((microAdvanceOne s).step_number, (microAdvanceOne s).micro_step_number) =
      mStepFun s.direction s.number_of_steps s.number_of_micro_steps
        (s.step_number, s.micro_step_number) := by
  simp only [microAdvanceOne, mStepFun, mFwd, mBwd]
  split_ifs <;> simp_all [mFwd, mBwd]

theorem microAdvanceOne_rest (s : Stepper) :
    (microAdvanceOne s).direction = s.direction ∧
    (microAdvanceOne s).number_of_steps = s.number_of_steps ∧
    (microAdvanceOne s).pin_count = s.pin_count ∧
    (microAdvanceOne s).micro_stepping = s.micro_stepping ∧
    (microAdvanceOne s).number_of_micro_steps = s.number_of_micro_steps ∧
    (microAdvanceOne s).micro_step_delay = s.micro_step_delay := by
  simp only [microAdvanceOne]
  split_ifs <;> simp

theorem advanceOne_at (s : Stepper) (now : Nat) :
    (advanceOne { s with last_step_time := now }).step_number
        = stepFun s.direction s.number_of_steps s.step_number ∧
    (advanceOne { s with last_step_time := now }).direction = s.direction ∧
    (advanceOne { s with last_step_time := now }).number_of_steps = s.number_of_steps ∧
    (advanceOne { s with last_step_time := now }).pin_count = s.pin_count ∧
    (advanceOne { s with last_step_time := now }).micro_step_number = s.micro_step_number := by
  unfold advanceOne stepFun
  split <;> simp_all

namespace InterruptFork

theorem rowIndex_eq (s : Stepper) : rowIndex s = rowFunI s.pin_count s.step_number := rfl

theorem runLoop_cons_intr (s : Stepper) (sl now : Nat) (rest : List Iter) :
    runLoop s (sl + 1) (⟨now, true⟩ :: rest) = ⟨{ s with INTERRUPTED := true }, 0, []⟩ := by
  rw [runLoop]; simp

theorem runLoop_cons_flag (s : Stepper) (sl now : Nat) (rest : List Iter)
    (hI : s.INTERRUPTED = true) :
    runLoop s (sl + 1) (⟨now, false⟩ :: rest) = ⟨s, 0, []⟩ := by
  rw [runLoop]; simp [hI]

theorem runLoop_cons_due (s : Stepper) (sl now : Nat) (rest : List Iter)
    (hI : s.INTERRUPTED = false) (hdue : s.step_delay ≤ usub32 now s.last_step_time) :
    runLoop s (sl + 1) (⟨now, false⟩ :: rest) =
      ⟨(runLoop (advanceOne { s with last_step_time := now }) sl rest).state,
       (runLoop (advanceOne { s with last_step_time := now }) sl rest).executed + 1,
       rowIndex (advanceOne { s with last_step_time := now }) ::
         (runLoop (advanceOne { s with last_step_time := now }) sl rest).rows⟩ := by
  rw [runLoop]; simp [hI, hdue]

theorem runLoop_cons_wait (s : Stepper) (sl now : Nat) (rest : List Iter)
    (hI : s.INTERRUPTED = false) (hdue : ¬ s.step_delay ≤ usub32 now s.last_step_time) :
    runLoop s (sl + 1) (⟨now, false⟩ :: rest) = runLoop s (sl + 1) rest := by
  rw [runLoop]; simp [hI, hdue]

/-- The interruptible-fork loop refines iterated application of the
direction function: the executed count never exceeds the request, the
final `step_number` is the executed-fold of `stepFun`, the emitted row
indices are the corresponding trace, and the configuration fields and
the micro index are untouched. -/
theorem runLoop_spec : ∀ (iters : List Iter) (s : Stepper) (sl : Nat),
    (runLoop s sl iters).executed ≤ sl ∧
    (runLoop s sl iters).state.step_number =
      (stepFun s.direction s.number_of_steps)^[(runLoop s sl iters).executed] s.step_number ∧
    (runLoop s sl iters).rows =
      rowTrace (stepFun s.direction s.number_of_steps) (rowFunI s.pin_count)
        (runLoop s sl iters).executed s.step_number ∧
    (runLoop s sl iters).state.direction = s.direction ∧
    (runLoop s sl iters).state.number_of_steps = s.number_of_steps ∧
    (runLoop s sl iters).state.pin_count = s.pin_count ∧
    (runLoop s sl iters).state.micro_step_number = s.micro_step_number := by
  intro iters
  induction iters with
  | nil => intro s sl; simp [runLoop, rowTrace]
  | cons it rest ih =>
    intro s sl
    match sl with
    | 0 => simp [runLoop, rowTrace]
    | Nat.succ sl =>
      rcases it with ⟨now, intr⟩
      cases intr with
      | true =>
        rw [runLoop_cons_intr]
        simp [rowTrace]
      | false =>
        by_cases hI : s.INTERRUPTED = true
        · rw [runLoop_cons_flag s sl now rest hI]
          simp [rowTrace]
        · replace hI : s.INTERRUPTED = false := by
            cases h : s.INTERRUPTED <;> simp_all
          by_cases hdue : s.step_delay ≤ usub32 now s.last_step_time
          · rw [runLoop_cons_due s sl now rest hI hdue]
            obtain ⟨e1, e2, e3, e4, e5⟩ := advanceOne_at s now
            obtain ⟨h1, h2, h3, h4, h5, h6, h7⟩ :=
              ih (advanceOne { s with last_step_time := now }) sl
            refine ⟨Nat.succ_le_succ h1, ?_, ?_, by rw [h4, e2], by rw [h5, e3], by rw [h6, e4],
              by rw [h7, e5]⟩
            · rw [h2, e2, e3, e1, ← Function.iterate_succ_apply]
            · rw [h3, rowIndex_eq, e1, e2, e3, e4, rowTrace]
          · rw [runLoop_cons_wait s sl now rest hI hdue]
            exact ih s (sl + 1)

end InterruptFork

namespace MicroFork

theorem rowIndexM_eq (s : Stepper) : rowIndex s = rowFunM s.pin_count s.step_number := rfl

theorem runLoopM_cons_due (s : Stepper) (sl now : Nat) (rest : List Nat)
    (hdue : s.step_delay ≤ usub32 now s.last_step_time) :
    runLoop s (sl + 1) (now :: rest) =
      ⟨(runLoop (advanceOne { s with last_step_time := now }) sl rest).state,
       (runLoop (advanceOne { s with last_step_time := now }) sl rest).executed + 1,
       rowIndex (advanceOne { s with last_step_time := now }) ::
         (runLoop (advanceOne { s with last_step_time := now }) sl rest).rows⟩ := by
  rw [runLoop]; simp [hdue]

theorem runLoopM_cons_wait (s : Stepper) (sl now : Nat) (rest : List Nat)
    (hdue : ¬ s.step_delay ≤ usub32 now s.last_step_time) :
    runLoop s (sl + 1) (now :: rest) = runLoop s (sl + 1) rest := by
  rw [runLoop]; simp [hdue]

/-- Whole-step loop of the microstepping fork: same refinement as the
interruptible fork (minus the interruption flag), with the row
function of this fork. -/
theorem runLoopM_spec : ∀ (nows : List Nat) (s : Stepper) (sl : Nat),
    (runLoop s sl nows).executed ≤ sl ∧
    (runLoop s sl nows).state.step_number =
      (stepFun s.direction s.number_of_steps)^[(runLoop s sl nows).executed] s.step_number ∧
    (runLoop s sl nows).rows =
      rowTrace (stepFun s.direction s.number_of_steps) (rowFunM s.pin_count)
        (runLoop s sl nows).executed s.step_number ∧
    (runLoop s sl nows).state.direction = s.direction ∧
    (runLoop s sl nows).state.number_of_steps = s.number_of_steps ∧
    (runLoop s sl nows).state.pin_count = s.pin_count ∧
    (runLoop s sl nows).state.micro_step_number = s.micro_step_number := by
  intro nows
  induction nows with
  | nil => intro s sl; simp [runLoop, rowTrace]
  | cons now rest ih =>
    intro s sl
    match sl with
    | 0 => simp [runLoop, rowTrace]
    | Nat.succ sl =>
      by_cases hdue : s.step_delay ≤ usub32 now s.last_step_time
      · rw [runLoopM_cons_due s sl now rest hdue]
        obtain ⟨e1, e2, e3, e4, e5⟩ := advanceOne_at s now
        obtain ⟨h1, h2, h3, h4, h5, h6, h7⟩ :=
          ih (advanceOne { s with last_step_time := now }) sl
        refine ⟨Nat.succ_le_succ h1, ?_, ?_, by rw [h4, e2], by rw [h5, e3], by rw [h6, e4],
          by rw [h7, e5]⟩
        · rw [h2, e2, e3, e1, ← Function.iterate_succ_apply]
        · rw [h3, rowIndexM_eq, e1, e2, e3, e4, rowTrace]
      · rw [runLoopM_cons_wait s sl now rest hdue]
        exact ih s (sl + 1)

theorem microAdvanceOne_at (s : Stepper) (now : Nat) :
    ((microAdvanceOne { s with last_step_time := now }).step_number,
     (microAdvanceOne { s with last_step_time := now }).micro_step_number) =
      mStepFun s.direction s.number_of_steps s.number_of_micro_steps
        (s.step_number, s.micro_step_number) := microAdvanceOne_pair _

theorem runMicroLoop_cons_due (s : Stepper) (sl now : Nat) (rest : List Nat)
    (hdue : s.micro_step_delay ≤ usub32 now s.last_step_time) :
    runMicroLoop s (sl + 1) (now :: rest) =
      ⟨(runMicroLoop (microAdvanceOne { s with last_step_time := now }) sl rest).state,
       (runMicroLoop (microAdvanceOne { s with last_step_time := now }) sl rest).executed + 1,
       (if (microAdvanceOne { s with last_step_time := now }).pin_count = 2 ∨
           (microAdvanceOne { s with last_step_time := now }).pin_count = 4 then
          [(Int.tmod (microAdvanceOne { s with last_step_time := now }).step_number 4,
            (microAdvanceOne { s with last_step_time := now }).micro_step_number)] else []) ++
         (runMicroLoop (microAdvanceOne { s with last_step_time := now }) sl rest).calls⟩ := by
  rw [runMicroLoop]; simp [hdue]

theorem runMicroLoop_cons_wait (s : Stepper) (sl now : Nat) (rest : List Nat)
    (hdue : ¬ s.micro_step_delay ≤ usub32 now s.last_step_time) :
    runMicroLoop s (sl + 1) (now :: rest) = runMicroLoop s (sl + 1) rest := by
  rw [runMicroLoop]; simp [hdue]

/-- Microstepping loop refinement: the final position pair is the
executed-fold of the direction pair-function, and the configuration
fields are untouched. -/
theorem runMicroLoop_spec : ∀ (nows : List Nat) (s : Stepper) (sl : Nat),
    (runMicroLoop s sl nows).executed ≤ sl ∧
    ((runMicroLoop s sl nows).state.step_number,
     (runMicroLoop s sl nows).state.micro_step_number) =
      (mStepFun s.direction s.number_of_steps s.number_of_micro_steps)^[(runMicroLoop s sl nows).executed]
        (s.step_number, s.micro_step_number) ∧
    (runMicroLoop s sl nows).state.direction = s.direction ∧
    (runMicroLoop s sl nows).state.number_of_steps = s.number_of_steps ∧
    (runMicroLoop s sl nows).state.number_of_micro_steps = s.number_of_micro_steps ∧
    (runMicroLoop s sl nows).state.micro_stepping = s.micro_stepping ∧
    (runMicroLoop s sl nows).state.pin_count = s.pin_count := by
  intro nows
  induction nows with
  | nil => intro s sl; simp [runMicroLoop]
  | cons now rest ih =>
    intro s sl
    match sl with
    | 0 => simp [runMicroLoop]
    | Nat.succ sl =>
      by_cases hdue : s.micro_step_delay ≤ usub32 now s.last_step_time
      · rw [runMicroLoop_cons_due s sl now rest hdue]
        have e1 := microAdvanceOne_at s now
        obtain ⟨f1, f2, f3, f4, f5, f6⟩ :=
          microAdvanceOne_rest ({ s with last_step_time := now })
        obtain ⟨h1, h2, h3, h4, h5, h6, h7⟩ :=
          ih (microAdvanceOne { s with last_step_time := now }) sl
        refine ⟨Nat.succ_le_succ h1, ?_, by rw [h3, f1], by rw [h4, f2],
          by rw [h5, f5], by rw [h6, f4], by rw [h7, f3]⟩
        rw [h2, f1, f2, f5, e1, ← Function.iterate_succ_apply]
      · rw [runMicroLoop_cons_wait s sl now rest hdue]
        exact ih s (sl + 1)

end MicroFork

/-- Effect of the request prologue on every field: `steps_left` is the
absolute value, `direction` follows the sign tests, everything else is
untouched. -/
theorem stepRequest_spec (s : Stepper) (c : Int) :
    (stepRequest s c).1 = c.natAbs ∧
    (stepRequest s c).2.direction = (if 0 < c then 1 else if c < 0 then 0 else s.direction) ∧
    (stepRequest s c).2.step_number = s.step_number ∧
    (stepRequest s c).2.number_of_steps = s.number_of_steps ∧
    (stepRequest s c).2.pin_count = s.pin_count ∧
    (stepRequest s c).2.micro_step_number = s.micro_step_number ∧
    (stepRequest s c).2.micro_stepping = s.micro_stepping ∧
    (stepRequest s c).2.number_of_micro_steps = s.number_of_micro_steps ∧
    (stepRequest s c).2.INTERRUPTED = s.INTERRUPTED ∧
    (stepRequest s c).2.step_delay = s.step_delay ∧
    (stepRequest s c).2.micro_step_delay = s.micro_step_delay ∧
    (stepRequest s c).2.last_step_time = s.last_step_time := by
  unfold stepRequest
  rcases lt_trichotomy c 0 with h | h | h
  · simp only [if_neg (show ¬ (0 : Int) < c by omega), if_pos h]
    simp
  · subst h
    simp
  · simp only [if_pos h, if_neg (show ¬ c < (0 : Int) by omega)]
    simp

theorem InterruptFork.step_eq (s : Stepper) (c : Int) (iters : List Iter) :
    InterruptFork.step s c iters =
      InterruptFork.runLoop (stepRequest s c).2 (stepRequest s c).1 iters := rfl

theorem MicroFork.step_whole (s : Stepper) (c : Int) (nows : List Nat)
    (h : s.micro_stepping = false) :
    MicroFork.step s c nows =
      ⟨(MicroFork.runLoop (stepRequest s c).2 (stepRequest s c).1 nows).state,
       (MicroFork.runLoop (stepRequest s c).2 (stepRequest s c).1 nows).executed,
       (MicroFork.runLoop (stepRequest s c).2 (stepRequest s c).1 nows).rows, []⟩ := by
  have hm := (stepRequest_spec s c).2.2.2.2.2.2.1
  unfold MicroFork.step
  rw [if_pos (hm.trans h)]

theorem MicroFork.step_micro (s : Stepper) (c : Int) (nows : List Nat)
    (h : s.micro_stepping = true) :
    MicroFork.step s c nows =
      ⟨(MicroFork.runMicroLoop (stepRequest s c).2 (stepRequest s c).1 nows).state,
       (MicroFork.runMicroLoop (stepRequest s c).2 (stepRequest s c).1 nows).executed, [],
       (MicroFork.runMicroLoop (stepRequest s c).2 (stepRequest s c).1 nows).calls⟩ := by
  have hm := (stepRequest_spec s c).2.2.2.2.2.2.1
  unfold MicroFork.step
  rw [if_neg (by rw [hm, h]; simp)]

/-- Conversion of the stored delay to plain naturals: for positive
divisors the C truncating division chain equals natural division and
the value fits in 32 bits. -/
theorem setSpeed_delay_nat {n w : Int} (hn : 0 < n) (hw : 0 < w) :
    toU32 (Int.tdiv (Int.tdiv 60000000 n) w) = 60000000 / n.toNat / w.toNat := by
  have hn' : ((n.toNat : Int)) = n := Int.toNat_of_nonneg hn.le
  have hw' : ((w.toNat : Int)) = w := Int.toNat_of_nonneg hw.le
  have htd : ∀ (a b : Nat), Int.tdiv ((a : Nat) : Int) ((b : Nat) : Int) = (((a / b : Nat)) : Int) :=
    fun a b => rfl
  have htu : ∀ (m : Nat), toU32 ((m : Nat) : Int) = m % 4294967296 := fun m => rfl
  have key : Int.tdiv (Int.tdiv 60000000 n) w = (((60000000 / n.toNat / w.toNat : Nat)) : Int) := by
    conv_lhs => rw [← hn', ← hw', show ((60000000 : Int)) = (((60000000 : Nat)) : Int) from rfl]
    rw [htd, htd]
  rw [key, htu]
  have hle : 60000000 / n.toNat / w.toNat ≤ 60000000 :=
    le_trans (Nat.div_le_self _ _) (Nat.div_le_self _ _)
  exact Nat.mod_eq_of_lt (lt_of_le_of_lt hle (by norm_num))

theorem advanceOne_INTERRUPTED (s : Stepper) :
    (advanceOne s).INTERRUPTED = s.INTERRUPTED := by
  unfold advanceOne; split <;> rfl

/-- C7: for every signed step count, the motion request prologue of
`Stepper::step` sets `direction` to 1 (forward) on a positive count,
to 0 (reverse) on a negative count, leaves it unchanged on a zero
count, and takes the absolute value as the remaining-step count;
`step_number` is untouched by the request itself. -/
theorem C7_motion_request_sign_magnitude (s : Stepper) (c : Int) :
    (stepRequest s c).2.direction =
      (if 0 < c then 1 else if c < 0 then 0 else s.direction) ∧
    (stepRequest s c).1 = c.natAbs ∧
    (stepRequest s c).2.step_number = s.step_number := by
  obtain ⟨h1, h2, h3, _⟩ := stepRequest_spec s c
  exact ⟨h2, h1, h3⟩

/-- C3: for positive steps-per-revolution and rpm, `setSpeed` stores
`step_delay = 60000000 / number_of_steps / rpm` in whole microseconds
by integer division, in both forks (the microstepping fork
additionally zeroes `micro_step_delay` when microstepping is off). -/
theorem C3_setSpeed_delay (s : Stepper) (rpm : Int)
    (hn : 0 < s.number_of_steps) (hr : 0 < rpm) :
    InterruptFork.setSpeed s rpm =
      some { s with step_delay := 60000000 / s.number_of_steps.toNat / rpm.toNat } ∧
    (s.micro_stepping = false →
      MicroFork.setSpeed s rpm =
        some ({ s with step_delay := 60000000 / s.number_of_steps.toNat / rpm.toNat,
                       micro_step_delay := 0 }, [])) := by
  have hguard : ¬ (s.number_of_steps = 0 ∨ rpm = 0) := by push_neg; constructor <;> omega
  constructor
  · unfold InterruptFork.setSpeed
    rw [if_neg hguard, setSpeed_delay_nat hn hr]
  · intro hms
    unfold MicroFork.setSpeed
    rw [if_neg hguard]
    simp only [hms, Bool.false_eq_true, if_false]
    rw [setSpeed_delay_nat hn hr]

/-- C3 witness: steps-per-revolution 2048 at 15 rpm gives a step delay
of exactly 1953 microseconds. -/
theorem C3_setSpeed_delay_witness :
    InterruptFork.setSpeed sample 15 = some { sample with step_delay := 1953 } := by
  have h := (C3_setSpeed_delay sample 15 (by decide) (by decide)).1
  exact h.trans (by decide)

/-- C1: falsified on the code: `setSpeed` computes
`60000000 / number_of_steps / whatSpeed` with no guard, so speed 0 is
a division by zero (a fault, `none` in the model); speed -15 does not
resolve the interval to 0 but to the wrapped unsigned value
4294965343 = 2^32 - 1953; and with that interval a step request at a
late enough clock reading does change `step_number` (from 0 to 1). -/
theorem C1_setSpeed_unguarded_division :
    InterruptFork.setSpeed sample 0 = none ∧
    InterruptFork.setSpeed sample (-15) = some { sample with step_delay := 4294965343 } ∧
    (4294965343 : Nat) ≠ 0 ∧
    (InterruptFork.step { sample with step_delay := 4294965343 } 1
        [⟨4294965343, false⟩]).state.step_number = 1 ∧
    sample.step_number = 0 := by decide

/-- C2: counterexample: in both forks a state with `step_delay = 0`
(speed never configured) and a 1-step request advances `step_number`
from 0 to 1 and emits pattern row 1 on the very first loop iteration,
contradicting "never advances, no pin pattern emitted". -/
theorem C2_zero_delay_counterexample :
    sample.step_delay = 0 ∧ sample.step_number = 0 ∧
    (InterruptFork.step sample 1 [⟨0, false⟩]).state.step_number = 1 ∧
    (InterruptFork.step sample 1 [⟨0, false⟩]).rows = [1] ∧
    (MicroFork.step sample 1 [0]).state.step_number = 1 ∧
    (MicroFork.step sample 1 [0]).rows = [1] := by decide

/-- C2 (amended): whenever `step_delay = 0`, the pacing check
`now - last_step_time >= step_delay` passes on every iteration, so an
uninterrupted blocking loop advances one step per observed iteration —
it executes min(requested, iterations) steps at the maximum loop rate
instead of never advancing. -/
theorem C2_zero_delay_steps_every_iteration (s : Stepper) (sl : Nat) (iters : List Iter)
    (hI : s.INTERRUPTED = false) (hd : s.step_delay = 0)
    (hall : ∀ it ∈ iters, it.intr = false) :
    (InterruptFork.runLoop s sl iters).executed = min sl iters.length := by
  induction iters generalizing s sl with
  | nil => simp [InterruptFork.runLoop]
  | cons it rest ih =>
    rcases it with ⟨now, intr⟩
    have hintr : intr = false := by
      have h := hall ⟨now, intr⟩ (List.mem_cons_self _ _)
      simpa using h
    subst hintr
    match sl with
    | 0 => simp [InterruptFork.runLoop]
    | Nat.succ sl =>
      have hdue : s.step_delay ≤ usub32 now s.last_step_time := by
        rw [hd]; exact Nat.zero_le _
      rw [InterruptFork.runLoop_cons_due s sl now rest hI hdue]
      have h1 : (advanceOne { s with last_step_time := now }).INTERRUPTED = false := by
        rw [advanceOne_INTERRUPTED]; simpa using hI
      have h2 : (advanceOne { s with last_step_time := now }).step_delay = 0 := by
        rw [(advanceOne_rest _).2.2.2.2.2.2.1]; simpa using hd
      have h3 : ∀ it ∈ rest, it.intr = false := fun it hit =>
        hall it (List.mem_cons_of_mem _ hit)
      have h4 := ih _ sl h1 h2 h3
      simp only [List.length_cons]
      show (InterruptFork.runLoop (advanceOne { s with last_step_time := now }) sl rest).executed + 1
        = min (sl + 1) (rest.length + 1)
      omega

/-- C2 witness for the amended statement: a concrete zero-delay state
executes exactly min(2, 2) = 2 steps over two observed iterations. -/
theorem C2_zero_delay_witness :
    (InterruptFork.runLoop sample 2 [⟨0, false⟩, ⟨5, false⟩]).executed = 2 := by
  have h := C2_zero_delay_steps_every_iteration sample 2 [⟨0, false⟩, ⟨5, false⟩]
    rfl rfl (by decide)
  exact h.trans (by decide)

theorem stepFun_mem {dir n x : Int} (hn : 0 < n) (h0 : 0 ≤ x) (h1 : x < n) :
    0 ≤ stepFun dir n x ∧ stepFun dir n x < n := by
  unfold stepFun; split
  · exact fwdWrap_mem hn h0 h1
  · exact bwdWrap_mem hn h0 h1

theorem mFwd_fst_mem {n nms : Int} (hn : 0 < n) {p : Int × Int}
    (h0 : 0 ≤ p.1) (h1 : p.1 < n) :
    0 ≤ (mFwd n nms p).1 ∧ (mFwd n nms p).1 < n := by
  unfold mFwd; split
  · exact fwdWrap_mem hn h0 h1
  · exact ⟨h0, h1⟩

theorem mBwd_fst_mem {n nms : Int} (hn : 0 < n) {p : Int × Int}
    (h0 : 0 ≤ p.1) (h1 : p.1 < n) :
    0 ≤ (mBwd n nms p).1 ∧ (mBwd n nms p).1 < n := by
  unfold mBwd; split
  · exact bwdWrap_mem hn h0 h1
  · exact ⟨h0, h1⟩

theorem mStepFun_fst_mem {dir n nms : Int} (hn : 0 < n) {p : Int × Int}
    (h0 : 0 ≤ p.1) (h1 : p.1 < n) :
    0 ≤ (mStepFun dir n nms p).1 ∧ (mStepFun dir n nms p).1 < n := by
  unfold mStepFun; split
  · exact mFwd_fst_mem hn h0 h1
  · exact mBwd_fst_mem hn h0 h1

theorem mStepFun_valid {dir n nms : Int} (hn : 0 < n) (hm : 0 < nms) {p : Int × Int}
    (h : MValid n nms p) : MValid n nms (mStepFun dir n nms p) := by
  unfold mStepFun; split
  · exact mFwd_mem hn hm h
  · exact mBwd_mem hn hm h

/-- C4: positions always address a valid pattern row: starting from a
state with `step_number` in [0, number_of_steps) (and, when
microstepping, `micro_step_number` in [0, number_of_micro_steps)), a
full `step` request in either fork leaves the indices in range —
every advance wraps at the boundary, the micro index carrying a whole
step into `step_number`. -/
theorem C4_position_invariant :
    (∀ (s : Stepper) (c : Int) (iters : List Iter),
      0 < s.number_of_steps → 0 ≤ s.step_number → s.step_number < s.number_of_steps →
      0 ≤ (InterruptFork.step s c iters).state.step_number ∧
      (InterruptFork.step s c iters).state.step_number < s.number_of_steps) ∧
    (∀ (s : Stepper) (c : Int) (nows : List Nat),
      0 < s.number_of_steps → 0 ≤ s.step_number → s.step_number < s.number_of_steps →
      0 ≤ (MicroFork.step s c nows).state.step_number ∧
      (MicroFork.step s c nows).state.step_number < s.number_of_steps) ∧
    (∀ (s : Stepper) (c : Int) (nows : List Nat),
      s.micro_stepping = true →
      0 < s.number_of_steps → 0 < s.number_of_micro_steps →
      0 ≤ s.step_number → s.step_number < s.number_of_steps →
      0 ≤ s.micro_step_number → s.micro_step_number < s.number_of_micro_steps →
      0 ≤ (MicroFork.step s c nows).state.micro_step_number ∧
      (MicroFork.step s c nows).state.micro_step_number < s.number_of_micro_steps) := by
  obtain hreq : ∀ (s : Stepper) (c : Int),
      (stepRequest s c).2.step_number = s.step_number ∧
      (stepRequest s c).2.number_of_steps = s.number_of_steps ∧
      (stepRequest s c).2.micro_step_number = s.micro_step_number ∧
      (stepRequest s c).2.number_of_micro_steps = s.number_of_micro_steps :=
    fun s c => by
      obtain ⟨_, _, a, b, _, d, _, e, _⟩ := stepRequest_spec s c
      exact ⟨a, b, d, e⟩
  refine ⟨?_, ?_, ?_⟩
  · intro s c iters hn h0 h1
    rw [InterruptFork.step_eq]
    obtain ⟨a, b, d, e⟩ := hreq s c
    obtain ⟨_, m2, _, _⟩ :=
      InterruptFork.runLoop_spec iters (stepRequest s c).2 (stepRequest s c).1
    rw [m2, a, b]
    exact iterate_pres (fun x => 0 ≤ x ∧ x < s.number_of_steps) _
      (fun x hx => stepFun_mem hn hx.1 hx.2) _ _ ⟨h0, h1⟩
  · intro s c nows hn h0 h1
    obtain ⟨a, b, d, e⟩ := hreq s c
    by_cases hms : s.micro_stepping = true
    · rw [MicroFork.step_micro s c nows hms]
      obtain ⟨_, m2, _, _⟩ :=
        MicroFork.runMicroLoop_spec nows (stepRequest s c).2 (stepRequest s c).1
      have hfst := congrArg Prod.fst m2
      simp only at hfst
      show 0 ≤ (MicroFork.runMicroLoop (stepRequest s c).2 (stepRequest s c).1 nows).state.step_number ∧
        (MicroFork.runMicroLoop (stepRequest s c).2 (stepRequest s c).1 nows).state.step_number
          < s.number_of_steps
      rw [hfst, a, b, d, e]
      exact iterate_pres (fun p : Int × Int => 0 ≤ p.1 ∧ p.1 < s.number_of_steps) _
        (fun p hp => mStepFun_fst_mem hn hp.1 hp.2) _ _ ⟨h0, h1⟩
    · have hms' : s.micro_stepping = false := by
        cases h : s.micro_stepping <;> simp_all
      rw [MicroFork.step_whole s c nows hms']
      obtain ⟨_, m2, _, _⟩ :=
        MicroFork.runLoopM_spec nows (stepRequest s c).2 (stepRequest s c).1
      show 0 ≤ (MicroFork.runLoop (stepRequest s c).2 (stepRequest s c).1 nows).state.step_number ∧
        (MicroFork.runLoop (stepRequest s c).2 (stepRequest s c).1 nows).state.step_number
          < s.number_of_steps
      rw [m2, a, b]
      exact iterate_pres (fun x => 0 ≤ x ∧ x < s.number_of_steps) _
        (fun x hx => stepFun_mem hn hx.1 hx.2) _ _ ⟨h0, h1⟩
  · intro s c nows hms hn hm h0 h1 g0 g1
    obtain ⟨a, b, d, e⟩ := hreq s c
    rw [MicroFork.step_micro s c nows hms]
    obtain ⟨_, m2, _, _⟩ :=
      MicroFork.runMicroLoop_spec nows (stepRequest s c).2 (stepRequest s c).1
    have hsnd := congrArg Prod.snd m2
    simp only at hsnd
    show 0 ≤ (MicroFork.runMicroLoop (stepRequest s c).2 (stepRequest s c).1 nows).state.micro_step_number ∧
      (MicroFork.runMicroLoop (stepRequest s c).2 (stepRequest s c).1 nows).state.micro_step_number
        < s.number_of_micro_steps
    rw [hsnd, a, b, d, e]
    have hit := iterate_pres (MValid s.number_of_steps s.number_of_micro_steps)
      (mStepFun (stepRequest s c).2.direction s.number_of_steps s.number_of_micro_steps)
      (fun p hp => mStepFun_valid hn hm hp)
      ((MicroFork.runMicroLoop (stepRequest s c).2 (stepRequest s c).1 nows).executed)
      (s.step_number, s.micro_step_number) ⟨h0, h1, g0, g1⟩
    exact ⟨hit.2.2.1, hit.2.2.2⟩

/-- C4 witness: concrete runs of both forks stay in range. -/
theorem C4_position_invariant_witness :
    (0 ≤ (InterruptFork.step sample 5 [⟨0, false⟩, ⟨1, false⟩]).state.step_number ∧
     (InterruptFork.step sample 5 [⟨0, false⟩, ⟨1, false⟩]).state.step_number < 2048) ∧
    (0 ≤ (MicroFork.step { sample with micro_stepping := true, number_of_micro_steps := 2 }
        3 [0, 1]).state.micro_step_number ∧
     (MicroFork.step { sample with micro_stepping := true, number_of_micro_steps := 2 }
        3 [0, 1]).state.micro_step_number < 2) := by
  constructor
  · exact C4_position_invariant.1 sample 5 [⟨0, false⟩, ⟨1, false⟩]
      (by decide) (by decide) (by decide)
  · exact C4_position_invariant.2.2 { sample with micro_stepping := true, number_of_micro_steps := 2 }
      3 [0, 1] rfl (by decide) (by decide) (by decide) (by decide) (by decide) (by decide)

theorem stepFun_one (n : Int) : stepFun 1 n = fwdWrap n := by
  unfold stepFun; simp

theorem stepFun_zero (n : Int) : stepFun 0 n = bwdWrap n := by
  unfold stepFun; norm_num

theorem mStepFun_one (n nms : Int) : mStepFun 1 n nms = mFwd n nms := by
  unfold mStepFun; simp

theorem mStepFun_zero (n nms : Int) : mStepFun 0 n nms = mBwd n nms := by
  unfold mStepFun; norm_num

/-- C5: round trip: from a valid position, fully executing N forward
steps and then N reverse steps restores `step_number` (and, in
microstepping mode, the `(step_number, micro_step_number)` pair),
because the reverse advance is the exact inverse of the forward
advance on in-range positions. -/
theorem C5_roundtrip :
    (∀ (s : Stepper) (N : Nat) (i1 i2 : List Iter),
      0 < s.number_of_steps → 0 ≤ s.step_number → s.step_number < s.number_of_steps →
      (InterruptFork.step s (N : Int) i1).executed = N →
      (InterruptFork.step (InterruptFork.step s (N : Int) i1).state (-(N : Int)) i2).executed = N →
      (InterruptFork.step (InterruptFork.step s (N : Int) i1).state (-(N : Int)) i2).state.step_number
        = s.step_number) ∧
    (∀ (s : Stepper) (N : Nat) (n1 n2 : List Nat),
      s.micro_stepping = true →
      0 < s.number_of_steps → 0 < s.number_of_micro_steps →
      0 ≤ s.step_number → s.step_number < s.number_of_steps →
      0 ≤ s.micro_step_number → s.micro_step_number < s.number_of_micro_steps →
      (MicroFork.step s (N : Int) n1).executed = N →
      (MicroFork.step (MicroFork.step s (N : Int) n1).state (-(N : Int)) n2).executed = N →
      (MicroFork.step (MicroFork.step s (N : Int) n1).state (-(N : Int)) n2).state.step_number
        = s.step_number ∧
      (MicroFork.step (MicroFork.step s (N : Int) n1).state (-(N : Int)) n2).state.micro_step_number
        = s.micro_step_number) := by
  constructor
  · intro s N i1 i2 hn h0 h1 he1 he2
    simp only [InterruptFork.step_eq] at he1 he2 ⊢
    obtain ⟨_, d1, sn1, ns1, _⟩ := stepRequest_spec s (N : Int)
    obtain ⟨_, m2, _, _, m5, _, _⟩ :=
      InterruptFork.runLoop_spec i1 (stepRequest s (N : Int)).2 (stepRequest s (N : Int)).1
    obtain ⟨_, d2, sn2, ns2, _⟩ :=
      stepRequest_spec (InterruptFork.runLoop (stepRequest s (N : Int)).2
        (stepRequest s (N : Int)).1 i1).state (-(N : Int))
    obtain ⟨_, n2, _, _, _, _, _⟩ :=
      InterruptFork.runLoop_spec i2
        (stepRequest (InterruptFork.runLoop (stepRequest s (N : Int)).2
          (stepRequest s (N : Int)).1 i1).state (-(N : Int))).2
        (stepRequest (InterruptFork.runLoop (stepRequest s (N : Int)).2
          (stepRequest s (N : Int)).1 i1).state (-(N : Int))).1
    rw [n2, he2, sn2, ns2, m5, ns1, m2, he1, sn1]
    rcases Nat.eq_zero_or_pos N with hN | hN
    · subst hN; simp
    · have hd1 : (stepRequest s (N : Int)).2.direction = 1 := by
        rw [d1, if_pos (by exact_mod_cast hN)]
      have hd2 : (stepRequest (InterruptFork.runLoop (stepRequest s (N : Int)).2
          (stepRequest s (N : Int)).1 i1).state (-(N : Int))).2.direction = 0 := by
        rw [d2, if_neg (by omega), if_pos (by omega)]
      rw [hd1, hd2, ns1, stepFun_one, stepFun_zero]
      exact iterate_back (fun x => 0 ≤ x ∧ x < s.number_of_steps)
        (fwdWrap s.number_of_steps) (bwdWrap s.number_of_steps)
        (fun x hx => fwdWrap_mem hn hx.1 hx.2)
        (fun x hx => bwdWrap_fwdWrap hn hx.1 hx.2) N s.step_number ⟨h0, h1⟩
  · intro s N n1 n2 hms hn hm h0 h1 g0 g1 he1 he2
    obtain ⟨_, d1, sn1, ns1, _, msn1, hms1, nms1, _⟩ := stepRequest_spec s (N : Int)
    simp only [MicroFork.step_micro s (N : Int) n1 hms] at he1 he2 ⊢
    obtain ⟨_, m2, _, mns, mnms, mmicro, _⟩ :=
      MicroFork.runMicroLoop_spec n1 (stepRequest s (N : Int)).2 (stepRequest s (N : Int)).1
    have hms2 : (MicroFork.runMicroLoop (stepRequest s (N : Int)).2
        (stepRequest s (N : Int)).1 n1).state.micro_stepping = true := by
      rw [mmicro, hms1, hms]
    simp only [MicroFork.step_micro (MicroFork.runMicroLoop (stepRequest s (N : Int)).2
      (stepRequest s (N : Int)).1 n1).state (-(N : Int)) n2 hms2] at he2 ⊢
    obtain ⟨_, d2, sn2, ns2, _, msn2, _, nms2, _⟩ :=
      stepRequest_spec (MicroFork.runMicroLoop (stepRequest s (N : Int)).2
        (stepRequest s (N : Int)).1 n1).state (-(N : Int))
    obtain ⟨_, k2, _, _, _, _, _⟩ :=
      MicroFork.runMicroLoop_spec n2
        (stepRequest (MicroFork.runMicroLoop (stepRequest s (N : Int)).2
          (stepRequest s (N : Int)).1 n1).state (-(N : Int))).2
        (stepRequest (MicroFork.runMicroLoop (stepRequest s (N : Int)).2
          (stepRequest s (N : Int)).1 n1).state (-(N : Int))).1
    rw [he1] at m2
    rw [he2] at k2
    rw [sn2, msn2, ns2, nms2, mns, mnms, ns1, nms1] at k2
    rw [sn1, msn1, ns1, nms1] at m2
    have pair2 :
        ((MicroFork.runMicroLoop
          (stepRequest (MicroFork.runMicroLoop (stepRequest s (N : Int)).2
            (stepRequest s (N : Int)).1 n1).state (-(N : Int))).2
          (stepRequest (MicroFork.runMicroLoop (stepRequest s (N : Int)).2
            (stepRequest s (N : Int)).1 n1).state (-(N : Int))).1 n2).state.step_number,
         (MicroFork.runMicroLoop
          (stepRequest (MicroFork.runMicroLoop (stepRequest s (N : Int)).2
            (stepRequest s (N : Int)).1 n1).state (-(N : Int))).2
          (stepRequest (MicroFork.runMicroLoop (stepRequest s (N : Int)).2
            (stepRequest s (N : Int)).1 n1).state (-(N : Int))).1 n2).state.micro_step_number)
        = (s.step_number, s.micro_step_number) := by
      rw [k2, m2]
      rcases Nat.eq_zero_or_pos N with hN | hN
      · subst hN; simp
      · have hd1 : (stepRequest s (N : Int)).2.direction = 1 := by
          rw [d1, if_pos (by exact_mod_cast hN)]
        have hd2 : (stepRequest (MicroFork.runMicroLoop (stepRequest s (N : Int)).2
            (stepRequest s (N : Int)).1 n1).state (-(N : Int))).2.direction = 0 := by
          rw [d2, if_neg (by omega), if_pos (by omega)]
        rw [hd1, hd2, mStepFun_one, mStepFun_zero]
        exact iterate_back (MValid s.number_of_steps s.number_of_micro_steps)
          (mFwd s.number_of_steps s.number_of_micro_steps)
          (mBwd s.number_of_steps s.number_of_micro_steps)
          (fun p hp => mFwd_mem hn hm hp)
          (fun p hp => mBwd_mFwd hn hm hp) N (s.step_number, s.micro_step_number)
          ⟨h0, h1, g0, g1⟩
    exact ⟨congrArg Prod.fst pair2, congrArg Prod.snd pair2⟩

/-- C5 witness: a 4-position motor at `step_number = 2` goes forward 3
and back 3 to `step_number = 2`; a 2-microsteps-per-step motor returns
both indices after 5 microsteps each way. -/
theorem C5_roundtrip_witness :
    (InterruptFork.step
      (InterruptFork.step { sample with step_delay := 1, number_of_steps := 4, step_number := 2 }
        ((3 : Nat) : Int) [⟨1, false⟩, ⟨2, false⟩, ⟨3, false⟩]).state
      (-((3 : Nat) : Int)) [⟨4, false⟩, ⟨5, false⟩, ⟨6, false⟩]).state.step_number = 2 ∧
    ((MicroFork.step
      (MicroFork.step sampleMicro ((5 : Nat) : Int) [1, 2, 3, 4, 5]).state
      (-((5 : Nat) : Int)) [6, 7, 8, 9, 10]).state.step_number = 0 ∧
     (MicroFork.step
      (MicroFork.step sampleMicro ((5 : Nat) : Int) [1, 2, 3, 4, 5]).state
      (-((5 : Nat) : Int)) [6, 7, 8, 9, 10]).state.micro_step_number = 0) := by
  constructor
  · exact C5_roundtrip.1 { sample with step_delay := 1, number_of_steps := 4, step_number := 2 }
      3 [⟨1, false⟩, ⟨2, false⟩, ⟨3, false⟩] [⟨4, false⟩, ⟨5, false⟩, ⟨6, false⟩]
      (by decide) (by decide) (by decide) (by decide) (by decide)
  · exact C5_roundtrip.2 sampleMicro
      5 [1, 2, 3, 4, 5] [6, 7, 8, 9, 10] rfl (by decide) (by decide) (by decide) (by decide)
      (by decide) (by decide) (by decide) (by decide)

theorem rowTraceFive (n : Int) (hn : 10 ≤ n) :
    rowTrace (fwdWrap n) (rowFunI 5) 10 0 = [1, 2, 3, 4, 5, 6, 7, 8, 9, 0] := by
  have e0 : fwdWrap n 0 = 1 := by unfold fwdWrap; rw [if_neg (by omega)]; omega
  have e1 : fwdWrap n 1 = 2 := by unfold fwdWrap; rw [if_neg (by omega)]; omega
  have e2 : fwdWrap n 2 = 3 := by unfold fwdWrap; rw [if_neg (by omega)]; omega
  have e3 : fwdWrap n 3 = 4 := by unfold fwdWrap; rw [if_neg (by omega)]; omega
  have e4 : fwdWrap n 4 = 5 := by unfold fwdWrap; rw [if_neg (by omega)]; omega
  have e5 : fwdWrap n 5 = 6 := by unfold fwdWrap; rw [if_neg (by omega)]; omega
  have e6 : fwdWrap n 6 = 7 := by unfold fwdWrap; rw [if_neg (by omega)]; omega
  have e7 : fwdWrap n 7 = 8 := by unfold fwdWrap; rw [if_neg (by omega)]; omega
  have e8 : fwdWrap n 8 = 9 := by unfold fwdWrap; rw [if_neg (by omega)]; omega
  rcases eq_or_lt_of_le hn with h10 | h10
  · have e9 : fwdWrap n 9 = 0 := by unfold fwdWrap; rw [if_pos (by omega)]
    simp only [rowTrace, e0, e1, e2, e3, e4, e5, e6, e7, e8, e9]
    decide
  · have e9 : fwdWrap n 9 = 10 := by unfold fwdWrap; rw [if_neg (by omega)]; omega
    simp only [rowTrace, e0, e1, e2, e3, e4, e5, e6, e7, e8, e9]
    decide

/-- C6: on a 5-wire instance starting at `step_number = 0`, a fully
executed forward request of 10 steps passes the row indices
1, 2, ..., 9, 0 to `stepMotor` in exactly that order (row =
step_number mod 10), and on a 5-wire state `stepMotor` emits, for each
row 0..9, exactly the per-pin HIGH/LOW levels of the documented
five-phase truth table. -/
theorem C6_fivewire_sequence (s : Stepper) (iters : List Iter)
    (hpc : s.pin_count = 5) (hsn : s.step_number = 0) (hn : 10 ≤ s.number_of_steps)
    (hexec : (InterruptFork.step s 10 iters).executed = 10) :
    (InterruptFork.step s 10 iters).rows = [1, 2, 3, 4, 5, 6, 7, 8, 9, 0] ∧
    (∀ r : Int, 0 ≤ r → r < 10 →
      InterruptFork.stepMotor (InterruptFork.step s 10 iters).state r =
        fiveWireRow (InterruptFork.step s 10 iters).state (fivePhaseTruthTable r)) := by
  simp only [InterruptFork.step_eq] at hexec ⊢
  obtain ⟨_, d1, sn1, ns1, pc1, _⟩ := stepRequest_spec s 10
  obtain ⟨_, _, m3, _, _, m6, _⟩ :=
    InterruptFork.runLoop_spec iters (stepRequest s 10).2 (stepRequest s 10).1
  have hd1 : (stepRequest s 10).2.direction = 1 := by
    rw [d1, if_pos (by norm_num)]
  constructor
  · rw [m3, hexec, hd1, stepFun_one, pc1, hpc, sn1, hsn, ns1]
    exact rowTraceFive s.number_of_steps hn
  · intro r h0 h9
    have hpcF : (InterruptFork.runLoop (stepRequest s 10).2
        (stepRequest s 10).1 iters).state.pin_count = 5 := by
      rw [m6, pc1, hpc]
    interval_cases r <;>
      simp [InterruptFork.stepMotor, fiveWireRow, fivePhaseTruthTable, hpcF]

/-- C6 witness: the concrete 5-wire instance run over ten due
iterations emits rows 1..9, 0 and row 0 matches the truth table. -/
theorem C6_fivewire_sequence_witness :
    (InterruptFork.step sampleFive 10
      [⟨100, false⟩, ⟨200, false⟩, ⟨300, false⟩, ⟨400, false⟩, ⟨500, false⟩,
       ⟨600, false⟩, ⟨700, false⟩, ⟨800, false⟩, ⟨900, false⟩, ⟨1000, false⟩]).rows
      = [1, 2, 3, 4, 5, 6, 7, 8, 9, 0] ∧
    InterruptFork.stepMotor
      (InterruptFork.step sampleFive 10
        [⟨100, false⟩, ⟨200, false⟩, ⟨300, false⟩, ⟨400, false⟩, ⟨500, false⟩,
         ⟨600, false⟩, ⟨700, false⟩, ⟨800, false⟩, ⟨900, false⟩, ⟨1000, false⟩]).state 0 =
      fiveWireRow
        (InterruptFork.step sampleFive 10
          [⟨100, false⟩, ⟨200, false⟩, ⟨300, false⟩, ⟨400, false⟩, ⟨500, false⟩,
           ⟨600, false⟩, ⟨700, false⟩, ⟨800, false⟩, ⟨900, false⟩, ⟨1000, false⟩]).state
        (fivePhaseTruthTable 0) := by
  have h := C6_fivewire_sequence sampleFive
    [⟨100, false⟩, ⟨200, false⟩, ⟨300, false⟩, ⟨400, false⟩, ⟨500, false⟩,
     ⟨600, false⟩, ⟨700, false⟩, ⟨800, false⟩, ⟨900, false⟩, ⟨1000, false⟩]
    rfl rfl (by decide) (by decide)
  exact ⟨h.1, h.2 0 (by decide) (by decide)⟩

/-- Exiting on a set flag: whenever `INTERRUPTED` is already set, the
loop performs no further iteration work regardless of the remaining
request or the clock. -/
theorem runLoop_flagged (iters : List Iter) (s : Stepper) (sl : Nat)
    (hI : s.INTERRUPTED = true) :
    (InterruptFork.runLoop s sl iters).state.INTERRUPTED = true ∧
    (InterruptFork.runLoop s sl iters).executed = 0 ∧
    (InterruptFork.runLoop s sl iters).rows = [] ∧
    (InterruptFork.runLoop s sl iters).state.step_number = s.step_number := by
  match iters, sl with
  | [], sl => simp [InterruptFork.runLoop, hI]
  | it :: rest, 0 => simp [InterruptFork.runLoop, hI]
  | ⟨now, intr⟩ :: rest, Nat.succ sl =>
    cases intr with
    | true => rw [InterruptFork.runLoop_cons_intr]; simp
    | false => rw [InterruptFork.runLoop_cons_flag s sl now rest hI]; exact ⟨hI, rfl, rfl, rfl⟩

/-- C8: interruption semantics of the blocking loop: (1) such time as
an `interrupt()` delivery is observed with steps still remaining, the
loop exits at once — the flag is set, nothing further executes, no row
is emitted, and the state keeps its partial-completion values; (2) the
loop itself never clears the flag; (3) a `step` request issued while
the flag is still set performs no steps at all and emits nothing
(only the direction prologue runs); (4) only `clear_interrupt()`
clears the flag, and `interrupt()` sets it. -/
theorem C8_interrupt_flag_semantics :
    (∀ (s : Stepper) (sl now : Nat) (rest : List Iter),
      InterruptFork.runLoop s (sl + 1) (⟨now, true⟩ :: rest) =
        ⟨{ s with INTERRUPTED := true }, 0, []⟩) ∧
    (∀ (s : Stepper) (sl : Nat) (iters : List Iter), s.INTERRUPTED = true →
      (InterruptFork.runLoop s sl iters).state.INTERRUPTED = true) ∧
    (∀ (s : Stepper) (c : Int) (iters : List Iter), s.INTERRUPTED = true →
      (InterruptFork.step s c iters).executed = 0 ∧
      (InterruptFork.step s c iters).rows = [] ∧
      (InterruptFork.step s c iters).state.step_number = s.step_number ∧
      (InterruptFork.step s c iters).state.INTERRUPTED = true) ∧
    (∀ s : Stepper, (InterruptFork.interrupt s).INTERRUPTED = true ∧
      (InterruptFork.clear_interrupt s).INTERRUPTED = false) := by
  refine ⟨InterruptFork.runLoop_cons_intr, ?_, ?_, fun s => ⟨rfl, rfl⟩⟩
  · intro s sl iters hI
    exact (runLoop_flagged iters s sl hI).1
  · intro s c iters hI
    rw [InterruptFork.step_eq]
    have hI' : (stepRequest s c).2.INTERRUPTED = true := by
      rw [(stepRequest_spec s c).2.2.2.2.2.2.2.2.1, hI]
    obtain ⟨f1, f2, f3, f4⟩ :=
      runLoop_flagged iters (stepRequest s c).2 (stepRequest s c).1 hI'
    exact ⟨f2, f3, f4.trans (stepRequest_spec s c).2.2.1, f1⟩

/-- C8 witness: a request of 3 steps interrupted before the second
step executes exactly one step; with the flag still set, a subsequent
request of 2 performs no steps at all until `clear_interrupt`. -/
theorem C8_interrupt_flag_semantics_witness :
    (InterruptFork.runLoop { sample with INTERRUPTED := false, step_delay := 1 } 2
      [⟨7, true⟩] = ⟨{ sample with INTERRUPTED := true, step_delay := 1 }, 0, []⟩) ∧
    ((InterruptFork.step { sample with INTERRUPTED := true } 2 [⟨1, false⟩, ⟨2, false⟩]).executed = 0 ∧
     (InterruptFork.step { sample with INTERRUPTED := true } 2 [⟨1, false⟩, ⟨2, false⟩]).rows = [] ∧
     (InterruptFork.step { sample with INTERRUPTED := true } 2
        [⟨1, false⟩, ⟨2, false⟩]).state.step_number = sample.step_number ∧
     (InterruptFork.step { sample with INTERRUPTED := true } 2
        [⟨1, false⟩, ⟨2, false⟩]).state.INTERRUPTED = true) ∧
    (InterruptFork.clear_interrupt { sample with INTERRUPTED := true }).INTERRUPTED = false := by
  refine ⟨?_, ?_, ?_⟩
  · exact (C8_interrupt_flag_semantics.1 { sample with INTERRUPTED := false, step_delay := 1 }
      1 7 []).trans (by decide)
  · have h := C8_interrupt_flag_semantics.2.2.1 { sample with INTERRUPTED := true } 2
      [⟨1, false⟩, ⟨2, false⟩] rfl
    exact ⟨h.1, h.2.1, h.2.2.1.trans (by decide), h.2.2.2⟩
  · exact (C8_interrupt_flag_semantics.2.2.2 { sample with INTERRUPTED := true }).2

/-- C9: `off()` de-energizes the coils without losing position: the
state (in particular `step_number`, `micro_step_number`, `direction`)
is unchanged; in microstepping mode it writes PWM duty 0 on the two
PWM pins; for the bare 2-wire non-PWM topology it performs no pin
writes at all (the documented no-op); for 4-wire and 5-wire it writes
LOW on every control pin. -/
theorem C9_off_deenergizes_preserving_position (s : Stepper) :
    ((MicroFork.off s).1.step_number = s.step_number ∧
     (MicroFork.off s).1.micro_step_number = s.micro_step_number ∧
     (MicroFork.off s).1.direction = s.direction) ∧
    (s.micro_stepping = true →
      (MicroFork.off s).2 =
        [.analogWrite s.motor_pwm_pin_1 0, .analogWrite s.motor_pwm_pin_2 0]) ∧
    (s.micro_stepping = false → s.pin_count = 2 → (MicroFork.off s).2 = []) ∧
    (s.micro_stepping = false → s.pin_count = 4 →
      (MicroFork.off s).2 =
        [.digitalWrite s.motor_pin_1 false, .digitalWrite s.motor_pin_2 false,
         .digitalWrite s.motor_pin_3 false, .digitalWrite s.motor_pin_4 false]) ∧
    (s.micro_stepping = false → s.pin_count = 5 →
      (MicroFork.off s).2 =
        [.digitalWrite s.motor_pin_1 false, .digitalWrite s.motor_pin_2 false,
         .digitalWrite s.motor_pin_3 false, .digitalWrite s.motor_pin_4 false,
         .digitalWrite s.motor_pin_5 false]) := by
  unfold MicroFork.off
  split_ifs <;> simp_all

/-- C9 witness: concrete microstepping, bare 2-wire and 4-wire
instances. -/
theorem C9_off_witness :
    ((MicroFork.off sampleMicro).1.step_number = sampleMicro.step_number ∧
     (MicroFork.off sampleMicro).2 = [.analogWrite 5 0, .analogWrite 6 0]) ∧
    (MicroFork.off { sampleMicro with micro_stepping := false }).2 = [] ∧
    (MicroFork.off sample).2 =
      [.digitalWrite 8 false, .digitalWrite 9 false,
       .digitalWrite 10 false, .digitalWrite 11 false] := by
  refine ⟨⟨(C9_off_deenergizes_preserving_position sampleMicro).1.1, ?_⟩, ?_, ?_⟩
  · exact ((C9_off_deenergizes_preserving_position sampleMicro).2.1 rfl).trans (by decide)
  · exact (C9_off_deenergizes_preserving_position
      { sampleMicro with micro_stepping := false }).2.2.1 rfl rfl
  · exact ((C9_off_deenergizes_preserving_position sample).2.2.2.1 rfl rfl).trans (by decide)

/-- C10: the four-wire + PWM constructor stores the four motor pins
and then overwrites `motor_pin_3` and `motor_pin_4` with 0 and
`pin_count` with 2, so the arguments given for pins 3 and 4 are dead:
every pin written by a subsequent `stepMotor`, `microStepMotor` or
`off` on the constructed instance is `motor_pin_1`, `motor_pin_2` or
one of the two PWM pins. -/
theorem C10_fourwirePWM_overwrites_pins (n : Int) (ms : Bool) (nms p1 p2 p3 p4 pw1 pw2 : Int)
    (ud umd : Nat) (umn : Int) :
    (MicroFork.mkFourWirePWM n ms nms p1 p2 p3 p4 pw1 pw2 ud umd umn).motor_pin_3 = 0 ∧
    (MicroFork.mkFourWirePWM n ms nms p1 p2 p3 p4 pw1 pw2 ud umd umn).motor_pin_4 = 0 ∧
    (MicroFork.mkFourWirePWM n ms nms p1 p2 p3 p4 pw1 pw2 ud umd umn).pin_count = 2 ∧
    (∀ (r : Int) (a : Action),
      a ∈ MicroFork.stepMotor (MicroFork.mkFourWirePWM n ms nms p1 p2 p3 p4 pw1 pw2 ud umd umn) r →
      a.pinOf = some p1 ∨ a.pinOf = some p2) ∧
    (∀ (st mi : Int) (acts : List Action) (a : Action),
      MicroFork.microStepMotor (MicroFork.mkFourWirePWM n ms nms p1 p2 p3 p4 pw1 pw2 ud umd umn)
        st mi = some acts → a ∈ acts →
      a.pinOf = some pw1 ∨ a.pinOf = some pw2 ∨ a.pinOf = some p1 ∨ a.pinOf = some p2) ∧
    (∀ a : Action,
      a ∈ (MicroFork.off (MicroFork.mkFourWirePWM n ms nms p1 p2 p3 p4 pw1 pw2 ud umd umn)).2 →
      a.pinOf = some pw1 ∨ a.pinOf = some pw2) := by
  have hpc : (MicroFork.mkFourWirePWM n ms nms p1 p2 p3 p4 pw1 pw2 ud umd umn).pin_count = 2 := rfl
  have hp1 : (MicroFork.mkFourWirePWM n ms nms p1 p2 p3 p4 pw1 pw2 ud umd umn).motor_pin_1 = p1 := rfl
  have hp2 : (MicroFork.mkFourWirePWM n ms nms p1 p2 p3 p4 pw1 pw2 ud umd umn).motor_pin_2 = p2 := rfl
  have hw1 : (MicroFork.mkFourWirePWM n ms nms p1 p2 p3 p4 pw1 pw2 ud umd umn).motor_pwm_pin_1 = pw1 := rfl
  have hw2 : (MicroFork.mkFourWirePWM n ms nms p1 p2 p3 p4 pw1 pw2 ud umd umn).motor_pwm_pin_2 = pw2 := rfl
  refine ⟨rfl, rfl, rfl, ?_, ?_, ?_⟩
  · intro r a ha
    unfold MicroFork.stepMotor at ha
    rw [hpc, hp1, hp2] at ha
    simp only [show ((2 : Int) = 2) = True by simp, show ((2 : Int) = 4) = False by simp,
      show ((2 : Int) = 5) = False by simp, if_true, if_false, List.append_nil] at ha
    split_ifs at ha
    all_goals simp only [List.mem_cons, List.not_mem_nil, or_false] at ha
    all_goals rcases ha with rfl | rfl
    all_goals simp [Action.pinOf]
  · intro st mi acts a hacts ha
    cases hmc : MicroFork.microCoils
        (MicroFork.mkFourWirePWM n ms nms p1 p2 p3 p4 pw1 pw2 ud umd umn) st mi with
    | none =>
      unfold MicroFork.microStepMotor at hacts
      rw [hmc] at hacts
      simp at hacts
    | some c =>
      unfold MicroFork.microStepMotor at hacts
      rw [hmc] at hacts
      simp only [Option.map_some', Option.some.injEq] at hacts
      subst hacts
      rw [hpc, hp1, hp2, hw1, hw2] at ha
      simp only [show ((2 : Int) = 2) = True by simp, if_true, List.cons_append,
        List.nil_append, List.mem_cons, List.not_mem_nil, or_false] at ha
      rcases ha with rfl | rfl | rfl | rfl <;> simp [Action.pinOf]
  · intro a ha
    have hms : (MicroFork.mkFourWirePWM n ms nms p1 p2 p3 p4 pw1 pw2 ud umd umn).micro_stepping
        = ms := rfl
    unfold MicroFork.off at ha
    rw [hpc, hw1, hw2, hms] at ha
    by_cases hmsv : ms = true
    · rw [if_pos hmsv] at ha
      simp only [List.mem_cons, List.not_mem_nil, or_false] at ha
      rcases ha with rfl | rfl <;> simp [Action.pinOf]
    · rw [if_neg hmsv, if_pos rfl] at ha
      simp at ha

/-- C10 witness: a concrete constructor call (pins 3, 4 for the first
pair, 5, 6 for the overwritten second pair, PWM pins 7, 8). -/
theorem C10_fourwirePWM_overwrites_pins_witness :
    (MicroFork.mkFourWirePWM 200 true 2 3 4 5 6 7 8 0 0 0).motor_pin_3 = 0 ∧
    (MicroFork.mkFourWirePWM 200 true 2 3 4 5 6 7 8 0 0 0).motor_pin_4 = 0 ∧
    (MicroFork.mkFourWirePWM 200 true 2 3 4 5 6 7 8 0 0 0).pin_count = 2 ∧
    ((Action.digitalWrite 3 false).pinOf = some 3 ∨
     (Action.digitalWrite 3 false).pinOf = some 4) ∧
    ((Action.analogWrite 7 726).pinOf = some 7 ∨ (Action.analogWrite 7 726).pinOf = some 8 ∨
     (Action.analogWrite 7 726).pinOf = some 3 ∨ (Action.analogWrite 7 726).pinOf = some 4) ∧
    ((Action.analogWrite 7 0).pinOf = some 7 ∨ (Action.analogWrite 7 0).pinOf = some 8) := by
  have h := C10_fourwirePWM_overwrites_pins 200 true 2 3 4 5 6 7 8 0 0 0
  refine ⟨h.1, h.2.1, h.2.2.1, ?_, ?_, ?_⟩
  · exact h.2.2.2.1 0 (Action.digitalWrite 3 false) (by decide)
  · exact h.2.2.2.2.1 0 1
      [Action.analogWrite 7 726, Action.analogWrite 8 726,
       Action.digitalWrite 3 true, Action.digitalWrite 4 true]
      (Action.analogWrite 7 726) (by decide) (by decide)
  · exact h.2.2.2.2.2 (Action.analogWrite 7 0) (by decide)

end StepperLib
